import Mathlib

/-!
# Verification of the ping-monitoring core

Shallow embedding of the concurrent job scheduler, sampling engine and
persistence layer of the `ping_xiangmu` repository
(`modules/ping_monitor.py`, `modules/task_manager.py`,
`modules/data_manager.py`, `app.py`), together with proofs and
refutations of the specified properties.

Machine integers/floats of the source are modelled as `Int`/`ℚ`;
wall-clock instants are modelled as integer timestamps (seconds).
-/

namespace PingXiangmu

/-! ## Sampler data model (`modules/ping_monitor.py`) -/

/-- Outcome tag of one sample, the `status` column written by
`PingMonitor._ping_loop` (strings `success`/`timeout`/`error`). -/
inductive SampleStatus where
  | success
  | timeout
  | error
deriving DecidableEq, Repr

/-- One probe observation, the dict built in `_ping_loop` (lines 51-56 and
66-72): `timestamp`, `target`, `response_time` (nullable), `status`, and the
`error` key that is present only on the exception path. -/
structure Sample where
  timestamp : String
  target : String
  response_time : Option ℚ
  status : SampleStatus
  error : Option String
deriving DecidableEq, Repr

/-- Result of one call of `ping3.ping(target, timeout=2, unit='ms')` as seen
by `_ping_loop`: a numeric latency, `None` (no reply within the timeout),
`False` (ping3's error return, e.g. unknown host), or a raised exception
carrying a message. -/
inductive ProbeResult where
  | latency (ms : ℚ)
  | noReply
  | falseReply
  | raises (msg : String)
deriving DecidableEq, Repr

/-- Python truthiness of the probe's return value, as used by
`response_time if response_time else None` and
`'success' if response_time else 'timeout'` in `_ping_loop` lines 54-55:
`None`, `False` and `0.0` are all falsy. -/
def ProbeResult.truthy : ProbeResult → Bool
  | .latency ms => ms != 0
  | _ => false

/-- The numeric value carried by the probe result, if any. -/
def ProbeResult.val? : ProbeResult → Option ℚ
  | .latency ms => some ms
  | _ => none

/-- Whether the probe call raised (i.e. `_ping_loop` takes its `except`
path). -/
def ProbeResult.isRaises : ProbeResult → Bool
  | .raises _ => true
  | _ => false

/-- The data point recorded for a non-raising probe (`_ping_loop`
lines 51-56): `response_time` is kept only when truthy, and the status is
`success` when truthy, else `timeout`. -/
def recordPoint (target ts : String) (r : ProbeResult) : Sample :=
  { timestamp := ts
    target := target
    response_time := if r.truthy then r.val? else none
    status := if r.truthy then .success else .timeout
    error := none }

/-- The data point recorded on the exception path (`_ping_loop`
lines 65-73): null latency, status `error`, error text `str(e)`. -/
def errorPoint (target ts : String) (msg : String) : Sample :=
  { timestamp := ts
    target := target
    response_time := none
    status := .error
    error := some msg }

/-! ## The sampling loop's buffering discipline (`_ping_loop` lines 36-82) -/

/-- In-memory state of one `_ping_loop` run: the `data_points` buffer and the
sequence of batches already handed to `_save_data`, in flush order. -/
structure LoopState where
  buffer : List Sample
  batches : List (List Sample)
deriving DecidableEq, Repr

/-- One iteration of `_ping_loop` on input `(timestamp, probe result)`.
On the `try` path the sample is appended and, if the buffer has reached 10
entries, it is flushed via `_save_data` and cleared (lines 58-63). On the
`except` path the error point is appended with no flush check
(lines 65-73). -/
def loopStep (target : String) (st : LoopState) (inp : String × ProbeResult) :
    LoopState :=
  match inp.2 with
  | .raises msg => { st with buffer := st.buffer ++ [errorPoint target inp.1 msg] }
  | r =>
      let buf := st.buffer ++ [recordPoint target inp.1 r]
      if buf.length ≥ 10 then { buffer := [], batches := st.batches ++ [buf] }
      else { st with buffer := buf }

/-- The whole loop over a finite sequence of probe iterations. -/
def runLoop (target : String) (inputs : List (String × ProbeResult)) : LoopState :=
  inputs.foldl (loopStep target) ⟨[], []⟩

/-- Loop exit (`_ping_loop` lines 77-79): a non-empty leftover buffer is
flushed; the result is the full sequence of batches written to the data
file. -/
def exitFlush (st : LoopState) : List (List Sample) :=
  if st.buffer = [] then st.batches else st.batches ++ [st.buffer]

/-! ## Store (`modules/data_manager.py` and the file side of
`modules/ping_monitor.py`)

The `data/` tree is modelled as three lists of files (raw CSV series,
JSON reports, PNG charts), each carrying a name and a last-modified
timestamp. -/

/-- Terminal summary of a job, the `stats` dict of
`PingMonitor._generate_report` lines 109-118.  The mean/min/max are over the
`response_time` column (null entries ignored, as pandas does); they are
`none` when no numeric latency exists at all. -/
structure Report where
  total_pings : Nat
  successful_pings : Nat
  timeout_pings : Nat
  error_pings : Nat
  avg_response_time : Option ℚ
  min_response_time : Option ℚ
  max_response_time : Option ℚ
  availability : ℚ
deriving DecidableEq, Repr

/-- The `stats` computation of `_generate_report` lines 109-118 on the rows
read back from the data file. -/
def computeStats (rows : List Sample) : Report :=
  let numeric := rows.filterMap (·.response_time)
  { total_pings := rows.length
    successful_pings := (rows.filter (·.status == .success)).length
    timeout_pings := (rows.filter (·.status == .timeout)).length
    error_pings := (rows.filter (·.status == .error)).length
    avg_response_time :=
      if numeric.isEmpty then none else some (numeric.sum / numeric.length)
    min_response_time := numeric.min?
    max_response_time := numeric.max?
    availability :=
      ((rows.filter (·.status == .success)).length : ℚ) / rows.length * 100 }

/-- A CSV file under `data/raw/`. -/
structure RawFile where
  name : String
  mtime : Int
  rows : List Sample
deriving DecidableEq, Repr

/-- A JSON report under `data/reports/`. -/
structure ReportFile where
  name : String
  mtime : Int
  report : Report
deriving DecidableEq, Repr

/-- A PNG chart under `data/processed/`. -/
structure ChartFile where
  name : String
  mtime : Int
deriving DecidableEq, Repr

/-- The persisted state owned by the Store. -/
structure Store where
  raw : List RawFile
  reports : List ReportFile
  charts : List ChartFile
deriving DecidableEq, Repr

/-- The data-file name chosen by `_ping_loop` line 43:
`ping_{target_ip}_{timestamp}.csv` — keyed by the TARGET, not the task id. -/
def samplerFileName (target ts0 : String) : String :=
  "ping_" ++ target ++ "_" ++ ts0 ++ ".csv"

/-- Report file name, `_generate_report` line 124 and
`DataManager.get_task_report` line 52: `report_{task_id}.json`. -/
def reportFileName (taskId : String) : String :=
  "report_" ++ taskId ++ ".json"

/-- Chart file name, `_create_charts` line 170: `chart_{task_id}.png`. -/
def chartFileName (taskId : String) : String :=
  "chart_" ++ taskId ++ ".png"

/-- Whether a raw-file name matches the glob `ping_{task_id}_*.csv` used by
`DataManager.load_task_data` line 29: the name starts with
`ping_{task_id}_`, ends with `.csv`, and the `*` covers a (possibly empty)
middle segment. -/
def globMatch (taskId fname : String) : Bool :=
  ("ping_" ++ taskId ++ "_").data.isPrefixOf fname.data &&
    ".csv".data.isSuffixOf fname.data &&
    decide (("ping_" ++ taskId ++ "_").length + 4 ≤ fname.length)

/-- Lexicographic comparison of file names (by Unicode code point), the
order `sorted(files)` uses in `load_task_data` line 37. -/
def charsLe : List Char → List Char → Bool
  | [], _ => true
  | _ :: _, [] => false
  | a :: as, b :: bs =>
      if a.val < b.val then true
      else if b.val < a.val then false
      else charsLe as bs

/-- Insert a file into a name-sorted list, after any equal names. -/
def insertByName (f : RawFile) : List RawFile → List RawFile
  | [] => [f]
  | g :: gs =>
      if charsLe g.name.data f.name.data then g :: insertByName f gs
      else f :: g :: gs

/-- Stable sort of files by name, `sorted(files)` in `load_task_data`. -/
def sortByName : List RawFile → List RawFile
  | [] => []
  | f :: fs => insertByName f (sortByName fs)

/-- `DataManager.load_task_data` (lines 27-48): glob the raw directory for
`ping_{task_id}_*.csv`; `None` when no file matches; otherwise concatenate
the matching files in sorted name order (a stable sort, as Python's
`sorted`).  (The per-file read `try/except` is I/O failure handling; reads
are modelled as always succeeding.) -/
def load_task_data (st : Store) (taskId : String) : Option (List Sample) :=
  let files := st.raw.filter (fun f => globMatch taskId f.name)
  if files.isEmpty then none
  else some (((sortByName files).map (·.rows)).flatten)

/-- `DataManager.get_task_report` (lines 50-58): `None` unless
`report_{task_id}.json` exists. -/
def get_task_report (st : Store) (taskId : String) : Option Report :=
  (st.reports.find? (fun f => f.name == reportFileName taskId)).map (·.report)

/-- `DataManager.clean_old_data` (lines 92-109): delete every raw CSV,
report JSON and chart PNG whose mtime precedes `now - days`. -/
def clean_old_data (now : Int) (days : Int) (st : Store) : Store :=
  let cutoff := now - days * 86400
  { raw := st.raw.filter (fun f => !decide (f.mtime < cutoff))
    reports := st.reports.filter (fun f => !decide (f.mtime < cutoff))
    charts := st.charts.filter (fun f => !decide (f.mtime < cutoff)) }

/-- `PingMonitor._generate_report` (lines 97-126): if the sampler's data
file does not exist (no batch was ever saved), return without producing
anything; otherwise read it back, write the chart and the report keyed by
the task id. -/
def generate_report (now : Int) (taskId fname : String) (st : Store) : Store :=
  match st.raw.find? (fun f => f.name == fname) with
  | none => st
  | some f =>
      { st with
        charts := st.charts ++ [⟨chartFileName taskId, now⟩]
        reports := st.reports ++ [⟨reportFileName taskId, now, computeStats f.rows⟩] }

/-- The Store effect of one whole `_ping_loop` run (lines 36-82): the flushed
batches accumulate by appending into the single target-keyed data file
(`_save_data`, append mode); if no batch was ever flushed the file is never
created; then `_generate_report` runs. -/
def runSampler (now : Int) (target taskId ts0 : String)
    (inputs : List (String × ProbeResult)) (st : Store) : Store :=
  let batches := exitFlush (runLoop target inputs)
  let fname := samplerFileName target ts0
  let st1 : Store :=
    if batches.isEmpty then st
    else { st with raw := st.raw ++ [⟨fname, now, batches.flatten⟩] }
  generate_report now taskId fname st1

/-! ## Scheduler (`modules/task_manager.py`, `app.py`)

The registry dicts are modelled as association lists with Python-dict
semantics: assignment updates an existing key in place, otherwise appends;
`task_history` values are `TaskRec` records.  `active_tasks` is modelled by
its key set (the `PingMonitor` values matter only through `task_id`). -/

/-- Job status strings of `task_manager.py`. -/
inductive TaskStatus where
  | running
  | completed
  | stopped
deriving DecidableEq, Repr

/-- One `task_history` record (`create_task` lines 31-38, mutated by the
watcher and by `stop_task`). -/
structure TaskRec where
  id : String
  target_ip : String
  duration_hours : Int
  start_time : Int
  status : TaskStatus
  progress : ℚ
  end_time : Option Int
deriving DecidableEq, Repr

/-- Python dict assignment `d[k] = v`: replace in place when the key exists,
else append. -/
def dinsert (k : String) (v : TaskRec) (l : List (String × TaskRec)) :
    List (String × TaskRec) :=
  if l.any (fun p => p.1 == k) then
    l.map (fun p => if p.1 = k then (k, v) else p)
  else l ++ [(k, v)]

/-- Python dict in-place field mutation `d[k]['f'] = x`: rewrite the value at
key `k`, leave everything else alone (no-op when the key is absent). -/
def dupdate (k : String) (f : TaskRec → TaskRec) (l : List (String × TaskRec)) :
    List (String × TaskRec) :=
  l.map (fun p => if p.1 = k then (k, f p.2) else p)

/-- `active_tasks[task_id] = monitor` on the key set. -/
def ainsert (k : String) (l : List String) : List String :=
  if k ∈ l then l else l ++ [k]

/-- The `TaskManager` registry state: concurrency ceiling, keys of
`active_tasks`, the `task_history` dict and the `completed_tasks` list. -/
structure TaskManager where
  max_concurrent_tasks : Nat
  active : List String
  history : List (String × TaskRec)
  completed : List TaskRec
deriving DecidableEq, Repr

/-- `TaskManager.__init__(max_concurrent_tasks=5)`. -/
def TaskManager.init (maxC : Nat := 5) : TaskManager :=
  { max_concurrent_tasks := maxC, active := [], history := [], completed := [] }

/-- Error taxonomy of the creation path: `create_task` raises on capacity
(line 18-19), `start_ping` rejects a blank target (lines 34-35) and an
over-long duration (lines 37-38). -/
inductive JobError where
  | capacityExceeded
  | invalidDuration
  | badTarget
deriving DecidableEq, Repr

/-- `TaskManager.create_task` (lines 16-50): raise when
`len(active_tasks) >= max_concurrent_tasks`; otherwise register the monitor
and the initial history record (`running`, progress 0) and return the id.
The fresh `uuid4` id is passed in as `tid`. -/
def create_task (now : Int) (tid target : String) (dh : Int)
    (s : TaskManager) : Except JobError (String × TaskManager) :=
  if s.active.length ≥ s.max_concurrent_tasks then .error .capacityExceeded
  else
    .ok (tid,
      { s with
        active := ainsert tid s.active
        history := dinsert tid
          { id := tid, target_ip := target, duration_hours := dh,
            start_time := now, status := .running, progress := 0,
            end_time := none } s.history })

/-- `TaskManager.stop_task` (lines 87-99): when the id is active, mark the
history record `stopped`, stamp the end time, drop it from the active set
and return `True`; otherwise return `False`. -/
def stop_task (now : Int) (tid : String) (s : TaskManager) :
    Bool × TaskManager :=
  if tid ∈ s.active then
    (true,
      { s with
        history := dupdate tid
          (fun r => { r with status := .stopped, end_time := some now }) s.history
        active := s.active.erase tid })
  else (false, s)

/-- The terminal block of `TaskManager._monitor_task` (lines 75-85), run by
the watcher when the sampler loop has stopped: pop the id from
`active_tasks` if still there; if the id is in `task_history`, set status
`completed`, stamp the end time, set progress to 100, and append the record
to `completed_tasks` — unconditionally, with no check of the prior status. -/
def monitor_end (now : Int) (tid : String) (s : TaskManager) : TaskManager :=
  let s1 := { s with active := s.active.erase tid }
  if s1.history.any (fun p => p.1 == tid) then
    let h := dupdate tid
      (fun r => { r with status := .completed, end_time := some now, progress := 100 })
      s1.history
    { s1 with
      history := h
      completed := s1.completed ++ (h.filter (fun p => p.1 == tid)).map (·.2) }
  else s1

/-- `TaskManager.cleanup_old_tasks` (lines 125-144): with cutoff
`now - days_to_keep`, keep a `completed_tasks` entry iff its end time
(falling back to start time) is after the cutoff, and remove from
`task_history` exactly the records with status `completed` whose time
precedes the cutoff. -/
def cleanup_old_tasks (now : Int) (days_to_keep : Int) (s : TaskManager) :
    TaskManager :=
  let cutoff := now - days_to_keep * 86400
  let taskTime : TaskRec → Int := fun r => r.end_time.getD r.start_time
  { s with
    completed := s.completed.filter (fun r => decide (cutoff < taskTime r))
    history := s.history.filter
      (fun p => !(p.2.status == .completed && decide (taskTime p.2 < cutoff))) }

/-- Python `str.strip()`: drop leading and trailing whitespace. -/
def pyStrip (s : String) : String :=
  ⟨((s.data.dropWhile Char.isWhitespace).reverse.dropWhile
      Char.isWhitespace).reverse⟩

/-- `start_ping` in `app.py` (lines 27-50): strip the target and reject a
blank one; reject `duration_hours > 24`; otherwise call `create_task`.
There is no check of non-positive durations. -/
def start_ping (now : Int) (tid : String) (target : String) (dh : Int)
    (s : TaskManager) : Except JobError (String × TaskManager) :=
  let target := pyStrip target
  if target = "" then .error .badTarget
  else if dh > 24 then .error .invalidDuration
  else create_task now tid target dh s

/-- The `/cleanup` endpoint (`app.py` lines 135-142): it invokes only
`data_manager.clean_old_data(days_to_keep=7)`.  The task registry is not
touched — `TaskManager.cleanup_old_tasks` has no caller anywhere in the
repository. -/
def cleanup_endpoint (now : Int) (reg : TaskManager) (st : Store) :
    TaskManager × Store :=
  (reg, clean_old_data now 7 st)

/-- One registry-mutating event: a creation request, an explicit stop, or
the watcher's terminal transition. -/
inductive Op where
  | create (now : Int) (tid target : String) (dh : Int)
  | stop (now : Int) (tid : String)
  | monEnd (now : Int) (tid : String)
deriving DecidableEq, Repr

/-- Effect of one event on the registry (a rejected creation raises before
any mutation, so it leaves the state unchanged). -/
def stepOp (s : TaskManager) : Op → TaskManager
  | .create now tid target dh =>
      match create_task now tid target dh s with
      | .ok (_, s') => s'
      | .error _ => s
  | .stop now tid => (stop_task now tid s).2
  | .monEnd now tid => monitor_end now tid s

/-- A whole run of registry events from a fresh `TaskManager`. -/
def runOps (maxC : Nat) (ops : List Op) : TaskManager :=
  ops.foldl stepOp (TaskManager.init maxC)

/-- Number of history records with status `running`. -/
def countRunning (s : TaskManager) : Nat :=
  (s.history.filter (fun p => p.2.status == .running)).length

/-- Registry coherence: the active key set and the history dict have no
duplicates, a key is active exactly when its history record is `running`,
the running count equals the active count, and the active count respects
the ceiling.  This holds initially and is preserved by every operation. -/
def Inv (s : TaskManager) : Prop :=
  s.active.Nodup ∧
  (s.history.map Prod.fst).Nodup ∧
  (∀ tid, tid ∈ s.active ↔
    ∃ r, s.history.lookup tid = some r ∧ r.status = TaskStatus.running) ∧
  countRunning s = s.active.length ∧
  s.active.length ≤ s.max_concurrent_tasks

/-! ## Interleaving model of concurrent `create_task` calls

`create_task` performs its admission check
(`len(self.active_tasks) >= self.max_concurrent_tasks`, line 18) *before*
acquiring `self.lock`; only the registration (lines 27-38) runs under the
lock.  Each of the two program points is therefore one atomic step of a
thread; an interleaving of two concurrent calls is a schedule of thread
ids. -/

/-- Program counter of one thread executing `create_task`: before the
admission check, between check and locked registration, finished, or
rejected by the capacity check. -/
inductive CPhase where
  | preCheck
  | preInsert
  | finished
  | rejected
deriving DecidableEq, Repr

/-- Two concurrent `create_task` callers over the shared registry: the size
of `active_tasks`, the ceiling, and each thread's program counter. -/
structure CreateRace where
  active : Nat
  maxC : Nat
  pc1 : CPhase
  pc2 : CPhase
deriving DecidableEq, Repr

/-- Thread identifiers of the race model. -/
inductive Tid where
  | one
  | two
deriving DecidableEq, Repr

/-- Advance one thread by one atomic step: at `preCheck` it runs the unlocked
admission check of line 18 (reject iff `active ≥ maxC`); at `preInsert` it
runs the locked registration of lines 27-38 (`active + 1`). -/
def raceStep (s : CreateRace) (t : Tid) : CreateRace :=
  let adv : CPhase → Nat → CPhase × Nat := fun pc a =>
    match pc with
    | .preCheck => if a ≥ s.maxC then (.rejected, a) else (.preInsert, a)
    | .preInsert => (.finished, a + 1)
    | pc => (pc, a)
  match t with
  | .one => let (pc, a) := adv s.pc1 s.active; { s with pc1 := pc, active := a }
  | .two => let (pc, a) := adv s.pc2 s.active; { s with pc2 := pc, active := a }

/-- Run a schedule (an interleaving of the two threads' steps). -/
def runRace (s : CreateRace) (sched : List Tid) : CreateRace :=
  sched.foldl raceStep s

/-! ## Theorems -/

/-! ### Association-list helper lemmas -/

theorem lookup_dupdate (k : String) (f : TaskRec → TaskRec)
    (l : List (String × TaskRec)) :
    (dupdate k f l).lookup k = (l.lookup k).map f := by
  induction l with
  | nil => rfl
  | cons p l ih =>
      obtain ⟨a, b⟩ := p
      by_cases h : a = k
      · subst h
        simp [dupdate, List.lookup_cons]
      · have h' : (k == a) = false := beq_eq_false_iff_ne.mpr (Ne.symm h)
        simpa [dupdate, List.lookup_cons, h, h'] using ih

theorem lookup_dupdate_ne (k k' : String) (f : TaskRec → TaskRec)
    (l : List (String × TaskRec)) (h : k' ≠ k) :
    (dupdate k f l).lookup k' = l.lookup k' := by
  induction l with
  | nil => rfl
  | cons p l ih =>
      obtain ⟨a, b⟩ := p
      by_cases hp : a = k
      · subst hp
        have h' : (k' == a) = false := beq_eq_false_iff_ne.mpr h
        simpa [dupdate, List.lookup_cons, h'] using ih
      · by_cases hk : k' = a
        · subst hk
          simp [dupdate, List.lookup_cons, hp]
        · have h' : (k' == a) = false := beq_eq_false_iff_ne.mpr hk
          simpa [dupdate, List.lookup_cons, hp, h'] using ih

theorem any_key_of_lookup (k : String) (l : List (String × TaskRec))
    (r : TaskRec) (h : l.lookup k = some r) :
    l.any (fun p => p.1 == k) = true := by
  induction l with
  | nil => simp [List.lookup_nil] at h
  | cons p l ih =>
      obtain ⟨a, b⟩ := p
      by_cases hp : a = k
      · simp [hp]
      · have h' : (k == a) = false := beq_eq_false_iff_ne.mpr (Ne.symm hp)
        simp only [List.lookup_cons, h'] at h
        simp only [List.any_cons, Bool.or_eq_true]
        exact Or.inr (ih (by simpa using h))

theorem any_key_eq_lookup_isSome (k : String) (l : List (String × TaskRec)) :
    l.any (fun p => p.1 == k) = (l.lookup k).isSome := by
  induction l with
  | nil => rfl
  | cons p l ih =>
      obtain ⟨a, b⟩ := p
      by_cases h : a = k
      · subst h
        simp [List.lookup_cons]
      · have h' : (k == a) = false := beq_eq_false_iff_ne.mpr (Ne.symm h)
        have h'' : (a == k) = false := beq_eq_false_iff_ne.mpr h
        simp [List.lookup_cons, h', h'', ih]

theorem lookup_isSome_iff_mem_keys (k : String) (l : List (String × TaskRec)) :
    (l.lookup k).isSome = true ↔ k ∈ l.map Prod.fst := by
  induction l with
  | nil => simp [List.lookup_nil]
  | cons p l ih =>
      obtain ⟨a, b⟩ := p
      by_cases h : a = k
      · subst h
        simp [List.lookup_cons]
      · have h' : (k == a) = false := beq_eq_false_iff_ne.mpr (Ne.symm h)
        simp [List.lookup_cons, h', ih, Ne.symm h]

theorem dupdate_of_lookup_none (k : String) (f : TaskRec → TaskRec)
    (l : List (String × TaskRec)) (h : l.lookup k = none) :
    dupdate k f l = l := by
  induction l with
  | nil => rfl
  | cons p l ih =>
      obtain ⟨a, b⟩ := p
      by_cases ha : a = k
      · subst ha
        simp [List.lookup_cons] at h
      · have h' : (k == a) = false := beq_eq_false_iff_ne.mpr (Ne.symm ha)
        simp only [List.lookup_cons, h'] at h
        simp only [dupdate, List.map_cons, if_neg ha]
        exact congrArg (fun t => (a, b) :: t) (ih h)

theorem keys_dupdate (k : String) (f : TaskRec → TaskRec)
    (l : List (String × TaskRec)) :
    (dupdate k f l).map Prod.fst = l.map Prod.fst := by
  induction l with
  | nil => rfl
  | cons p l ih =>
      obtain ⟨a, b⟩ := p
      by_cases ha : a = k
      · subst ha
        simp [dupdate] at ih ⊢
        exact ih
      · simp [dupdate, ha] at ih ⊢
        exact ih

theorem lookup_append_self (k : String) (v : TaskRec)
    (l : List (String × TaskRec)) (h : l.lookup k = none) :
    (l ++ [(k, v)]).lookup k = some v := by
  induction l with
  | nil => simp [List.lookup_cons]
  | cons p l ih =>
      obtain ⟨a, b⟩ := p
      by_cases ha : a = k
      · subst ha
        simp [List.lookup_cons] at h
      · have h' : (k == a) = false := beq_eq_false_iff_ne.mpr (Ne.symm ha)
        simp only [List.lookup_cons, h'] at h
        simpa [List.lookup_cons, h'] using ih h

theorem lookup_append_ne (k k' : String) (v : TaskRec)
    (l : List (String × TaskRec)) (h : k' ≠ k) :
    (l ++ [(k, v)]).lookup k' = l.lookup k' := by
  induction l with
  | nil => simp [List.lookup_cons, beq_eq_false_iff_ne.mpr h]
  | cons p l ih =>
      obtain ⟨a, b⟩ := p
      by_cases ha : a = k'
      · subst ha
        simp [List.lookup_cons]
      · have h' : (k' == a) = false := beq_eq_false_iff_ne.mpr (Ne.symm ha)
        simpa [List.lookup_cons, h'] using ih

theorem filter_dupdate_length (R : String × TaskRec → Bool) (k : String)
    (f : TaskRec → TaskRec) (l : List (String × TaskRec)) (r : TaskRec)
    (hnd : (l.map Prod.fst).Nodup) (h : l.lookup k = some r) :
    ((dupdate k f l).filter R).length + (if R (k, r) then 1 else 0) =
      (l.filter R).length + (if R (k, f r) then 1 else 0) := by
  induction l with
  | nil => simp [List.lookup_nil] at h
  | cons p l ih =>
      obtain ⟨a, b⟩ := p
      simp only [List.map_cons, List.nodup_cons] at hnd
      by_cases ha : a = k
      · subst ha
        simp only [List.lookup_cons, beq_self_eq_true, Option.some.injEq] at h
        subst h
        have hnone : l.lookup a = none := by
          cases hl : l.lookup a with
          | none => rfl
          | some w =>
              exact absurd ((lookup_isSome_iff_mem_keys a l).1 (by simp [hl]))
                hnd.1
        have hcons : dupdate a f ((a, b) :: l) = (a, f b) :: l := by
          simp only [dupdate, List.map_cons, if_pos rfl]
          exact congrArg (fun t => (a, f b) :: t)
            (dupdate_of_lookup_none a f l hnone)
        rw [hcons]
        by_cases h1 : R (a, b) <;> by_cases h2 : R (a, f b) <;>
          simp [List.filter_cons, h1, h2]
      · have h' : (k == a) = false := beq_eq_false_iff_ne.mpr (Ne.symm ha)
        simp only [List.lookup_cons, h'] at h
        have hcons : dupdate k f ((a, b) :: l) = (a, b) :: dupdate k f l := by
          simp only [dupdate, List.map_cons, if_neg ha]
        have hrec := ih hnd.2 h
        rw [hcons]
        by_cases hb : R (a, b) <;> simp [List.filter_cons, hb] <;> omega

theorem mem_ainsert (k k' : String) (l : List String) :
    k' ∈ ainsert k l ↔ k' = k ∨ k' ∈ l := by
  unfold ainsert
  by_cases h : k ∈ l
  · simp only [if_pos h]
    constructor
    · exact Or.inr
    · rintro (rfl | h') <;> [exact h; exact h']
  · simp only [if_neg h, List.mem_append, List.mem_singleton]
    exact or_comm

theorem nodup_ainsert (k : String) (l : List String) (h : l.Nodup) :
    (ainsert k l).Nodup := by
  unfold ainsert
  by_cases hm : k ∈ l
  · simpa [if_pos hm] using h
  · simp only [if_neg hm]
    exact List.Nodup.append h (List.nodup_singleton k)
      (by simpa [List.disjoint_singleton] using hm)

theorem length_ainsert_mem (k : String) (l : List String) (h : k ∈ l) :
    (ainsert k l).length = l.length := by
  simp [ainsert, h]

theorem length_ainsert_not_mem (k : String) (l : List String) (h : k ∉ l) :
    (ainsert k l).length = l.length + 1 := by
  simp [ainsert, h]

theorem dinsert_of_lookup_some (k : String) (v : TaskRec)
    (l : List (String × TaskRec)) (r : TaskRec) (h : l.lookup k = some r) :
    dinsert k v l = dupdate k (fun _ => v) l := by
  have ha : l.any (fun p => p.1 == k) = true := by
    rw [any_key_eq_lookup_isSome, h]
    rfl
  simp only [dinsert, if_pos ha]
  rfl

theorem dinsert_of_lookup_none (k : String) (v : TaskRec)
    (l : List (String × TaskRec)) (h : l.lookup k = none) :
    dinsert k v l = l ++ [(k, v)] := by
  have ha : l.any (fun p => p.1 == k) = false := by
    rw [any_key_eq_lookup_isSome, h]
    rfl
  simp [dinsert, ha]

theorem filter_append_single_length (R : String × TaskRec → Bool)
    (l : List (String × TaskRec)) (k : String) (v : TaskRec) :
    ((l ++ [(k, v)]).filter R).length =
      (l.filter R).length + (if R (k, v) then 1 else 0) := by
  by_cases h : R (k, v) <;> simp [List.filter_append, List.filter_cons, h]

/-- C3 counterexample: a probe that returns the numeric latency `0.0` is
recorded with outcome `timeout` and null latency, not `success` with that
latency — Python truthiness (`'success' if response_time else 'timeout'`)
conflates a zero latency with a missing one. -/
theorem zero_latency_recorded_as_timeout :
    (recordPoint "8.8.8.8" "t0" (.latency 0)).status = .timeout ∧
    (recordPoint "8.8.8.8" "t0" (.latency 0)).response_time = none := by
  constructor <;> rfl

/-- C3 (amended): a probe returning a nonzero numeric latency yields a
`success` sample carrying that latency; a zero latency, `None` within the
timeout, or ping3's `False` return all yield a `timeout` sample with null
latency; a raised exception yields an `error` sample with null latency and
the error text recorded. -/
theorem sample_classification (target ts msg : String) (q : ℚ) :
    (q ≠ 0 →
      recordPoint target ts (.latency q) =
        { timestamp := ts, target := target, response_time := some q,
          status := .success, error := none }) ∧
    recordPoint target ts (.latency 0) =
      { timestamp := ts, target := target, response_time := none,
        status := .timeout, error := none } ∧
    recordPoint target ts .noReply =
      { timestamp := ts, target := target, response_time := none,
        status := .timeout, error := none } ∧
    recordPoint target ts .falseReply =
      { timestamp := ts, target := target, response_time := none,
        status := .timeout, error := none } ∧
    errorPoint target ts msg =
      { timestamp := ts, target := target, response_time := none,
        status := .error, error := some msg } := by
  refine ⟨fun hq => ?_, rfl, rfl, rfl, rfl⟩
  simp [recordPoint, ProbeResult.truthy, ProbeResult.val?, hq]

/-- C3 witness: the amended classification at latency 20 ms. -/
theorem sample_classification_witness :
    recordPoint "8.8.8.8" "t0" (.latency 20) =
      { timestamp := "t0", target := "8.8.8.8", response_time := some 20,
        status := .success, error := none } :=
  (sample_classification "8.8.8.8" "t0" "m" 20).1 (by norm_num)

/-- C4 counterexample: the flush check sits only on the `try` path, so (a) a
buffer that reaches 10 samples via an error sample triggers no flush, and
(b) error samples can push the buffer past 10, after which the next
non-raising probe flushes a 12-sample batch — refuting both "a flush is
triggered exactly when the buffer reaches 10" and "the buffer never exceeds
10 at the moment a mid-loop flush occurs". -/
theorem flush_boundary_violated :
    (runLoop "h" (List.replicate 9 ("t", ProbeResult.latency 20) ++
        [("t", ProbeResult.raises "boom")])).batches = [] ∧
    (runLoop "h" (List.replicate 9 ("t", ProbeResult.latency 20) ++
        [("t", ProbeResult.raises "boom")])).buffer.length = 10 ∧
    (runLoop "h" (List.replicate 9 ("t", ProbeResult.latency 20) ++
        [("t", ProbeResult.raises "boom"), ("t", ProbeResult.raises "boom"),
         ("t", ProbeResult.latency 20)])).batches.map List.length = [12] := by
  refine ⟨rfl, rfl, rfl⟩

/-- C4 (amended): an error sample (raising probe) is appended with no flush
check; a sample from a non-raising probe is appended and the whole buffer
is flushed as one batch exactly when it has then reached 10 or more samples
(it can hold more than 10 when error samples pushed it past the threshold),
after which the buffer is empty; below 10 nothing is flushed; a non-empty
buffer of fewer than 10 samples is flushed only on loop exit. -/
theorem flush_discipline (target ts msg : String) (r : ProbeResult)
    (st : LoopState) :
    (loopStep target st (ts, .raises msg) =
      { st with buffer := st.buffer ++ [errorPoint target ts msg] }) ∧
    (r.isRaises = false → 10 ≤ st.buffer.length + 1 →
      loopStep target st (ts, r) =
        { buffer := [],
          batches := st.batches ++ [st.buffer ++ [recordPoint target ts r]] }) ∧
    (r.isRaises = false → st.buffer.length + 1 < 10 →
      loopStep target st (ts, r) =
        { st with buffer := st.buffer ++ [recordPoint target ts r] }) ∧
    (st.buffer ≠ [] → exitFlush st = st.batches ++ [st.buffer]) ∧
    (st.buffer = [] → exitFlush st = st.batches) := by
  refine ⟨rfl, fun hr h10 => ?_, fun hr h10 => ?_, fun h => ?_, fun h => ?_⟩
  · have hc : 10 ≤ (st.buffer ++ [recordPoint target ts r]).length := by
      simp only [List.length_append, List.length_singleton]; omega
    cases r with
    | latency q => simp only [loopStep]; rw [if_pos hc]
    | noReply => simp only [loopStep]; rw [if_pos hc]
    | falseReply => simp only [loopStep]; rw [if_pos hc]
    | raises m => simp [ProbeResult.isRaises] at hr
  · have hc : ¬ 10 ≤ (st.buffer ++ [recordPoint target ts r]).length := by
      simp only [List.length_append, List.length_singleton]; omega
    cases r with
    | latency q => simp only [loopStep]; rw [if_neg hc]
    | noReply => simp only [loopStep]; rw [if_neg hc]
    | falseReply => simp only [loopStep]; rw [if_neg hc]
    | raises m => simp [ProbeResult.isRaises] at hr
  · simp [exitFlush, h]
  · simp [exitFlush, h]

/-- C4 witness: the amended flush discipline at a 9-sample buffer receiving
a successful probe. -/
theorem flush_discipline_witness :
    loopStep "h" ⟨List.replicate 9 (recordPoint "h" "t" (.latency 1)), []⟩
        ("t", ProbeResult.latency 1) =
      { buffer := [],
        batches := [List.replicate 9 (recordPoint "h" "t" (.latency 1)) ++
          [recordPoint "h" "t" (.latency 1)]] } :=
  (flush_discipline "h" "t" "m" (.latency 1)
    ⟨List.replicate 9 (recordPoint "h" "t" (.latency 1)), []⟩).2.1
    rfl (by simp)

/-- C8: if the sample series is empty at loop exit (nothing was ever flushed,
so the data file was never created), `_generate_report` returns without
producing anything: the Store is left unchanged, no Report exists, and a
subsequent `get_task_report` returns not-found. -/
theorem empty_series_skips_report (now : Int) (target taskId ts0 : String)
    (inputs : List (String × ProbeResult)) (st : Store)
    (hempty : exitFlush (runLoop target inputs) = [])
    (hraw : st.raw.find? (fun f => f.name == samplerFileName target ts0) = none)
    (hrep : get_task_report st taskId = none) :
    runSampler now target taskId ts0 inputs st = st ∧
    get_task_report (runSampler now target taskId ts0 inputs st) taskId = none := by
  have h1 : runSampler now target taskId ts0 inputs st = st := by
    simp only [runSampler, hempty, List.isEmpty_nil, if_pos, generate_report, hraw]
  exact ⟨h1, by rw [h1]; exact hrep⟩

/-- C8 witness: a job whose loop never recorded a sample, against an empty
store. -/
theorem empty_series_skips_report_witness :
    runSampler 0 "8.8.8.8" "abc123" "20240101_120000" [] ⟨[], [], []⟩ =
        (⟨[], [], []⟩ : Store) ∧
    get_task_report
      (runSampler 0 "8.8.8.8" "abc123" "20240101_120000" [] ⟨[], [], []⟩)
      "abc123" = none :=
  empty_series_skips_report 0 "8.8.8.8" "abc123" "20240101_120000" [] ⟨[], [], []⟩
    rfl rfl rfl

/-- C1: the sampler names its data file after the TARGET
(`ping_{target_ip}_{timestamp}.csv`, `_ping_loop` line 43) while
`load_task_data` globs by TASK ID (`ping_{task_id}_*.csv`, line 29), so
after a full 10-sample batch has been flushed for job `abc123` probing
`8.8.8.8`, `load_task_data` on the job id still returns not-found; the
flushed series is only reachable under the target string. -/
theorem sampler_store_key_mismatch :
    (runLoop "8.8.8.8"
        (List.replicate 10 ("t", ProbeResult.latency 20))).batches.length = 1 ∧
    load_task_data
      (runSampler 0 "8.8.8.8" "abc123" "20240101_120000"
        (List.replicate 10 ("t", ProbeResult.latency 20)) ⟨[], [], []⟩)
      "abc123" = none ∧
    load_task_data
      (runSampler 0 "8.8.8.8" "abc123" "20240101_120000"
        (List.replicate 10 ("t", ProbeResult.latency 20)) ⟨[], [], []⟩)
      "8.8.8.8" =
      some (List.replicate 10 (recordPoint "8.8.8.8" "t" (.latency 20))) := by
  refine ⟨rfl, by decide, by decide⟩

/-- C2 counterexample: create job `a`, stop it (returns `True`, status
`stopped`), stop it again (returns `False`) — but when the watcher's
terminal block then runs (the loop has exited), it sets status `completed`
unconditionally, overwriting `stopped`: the status does NOT remain
`stopped`, refuting "explicit stop pre-empts natural completion". -/
theorem stop_then_watcher_overwrites :
    (stop_task 10 "a" (stepOp (TaskManager.init 5) (.create 0 "a" "t" 1))).1
        = true ∧
    (((stop_task 10 "a"
        (stepOp (TaskManager.init 5) (.create 0 "a" "t" 1))).2.history.lookup
          "a").map TaskRec.status = some .stopped) ∧
    (stop_task 11 "a"
      (stop_task 10 "a"
        (stepOp (TaskManager.init 5) (.create 0 "a" "t" 1))).2).1 = false ∧
    (((monitor_end 12 "a"
        (stop_task 10 "a"
          (stepOp (TaskManager.init 5)
            (.create 0 "a" "t" 1))).2).history.lookup "a").map TaskRec.status
        = some .completed) := by
  refine ⟨by decide, by decide, by decide, by decide⟩

/-- C2 (amended): the first `stop_task` on an active id returns `true` and
marks the record `stopped`; a second `stop_task` returns `false` and changes
nothing; but the watcher's terminal transition afterwards sets status
`completed`, progress 100 and a fresh end time unconditionally — it does not
check for a prior explicit stop, so `stopped` is overwritten by `completed`
rather than being preserved. -/
theorem stop_idempotent_watcher_completes
    (s : TaskManager) (t1 t2 t3 : Int) (tid : String) (r : TaskRec)
    (hact : tid ∈ s.active) (hnd : s.active.Nodup)
    (hrec : s.history.lookup tid = some r) :
    (stop_task t1 tid s).1 = true ∧
    ((stop_task t1 tid s).2.history.lookup tid =
      some { r with status := .stopped, end_time := some t1 }) ∧
    (stop_task t2 tid (stop_task t1 tid s).2).1 = false ∧
    (stop_task t2 tid (stop_task t1 tid s).2).2 = (stop_task t1 tid s).2 ∧
    ((monitor_end t3 tid (stop_task t1 tid s).2).history.lookup tid =
      some { r with status := .completed, end_time := some t3,
                    progress := 100 }) := by
  have hs1 : stop_task t1 tid s =
      (true,
        { s with
          history := dupdate tid
            (fun r => { r with status := .stopped, end_time := some t1 })
            s.history
          active := s.active.erase tid }) := by
    simp [stop_task, hact]
  have hmem : tid ∉ s.active.erase tid := fun hmem =>
    ((List.Nodup.mem_erase_iff hnd).1 hmem).1 rfl
  have hl1 : (stop_task t1 tid s).2.history.lookup tid =
      some { r with status := .stopped, end_time := some t1 } := by
    simp only [hs1]
    rw [lookup_dupdate, hrec]
    rfl
  refine ⟨by rw [hs1], hl1, ?_, ?_, ?_⟩
  · rw [hs1]
    simp [stop_task, hmem]
  · rw [hs1]
    simp [stop_task, hmem]
  · have hany : ((stop_task t1 tid s).2.history).any (fun p => p.1 == tid)
        = true := any_key_of_lookup tid _ _ hl1
    simp only [monitor_end, hany, if_true]
    rw [lookup_dupdate, hl1]
    rfl

/-- C2 witness: the amended statement run on the one-job registry. -/
theorem stop_idempotent_watcher_completes_witness :
    (stop_task 10 "a" (stepOp (TaskManager.init 5) (.create 0 "a" "t" 1))).1
        = true ∧
    ((stop_task 10 "a"
        (stepOp (TaskManager.init 5) (.create 0 "a" "t" 1))).2.history.lookup
          "a" =
      some { id := "a", target_ip := "t", duration_hours := 1,
             start_time := 0, status := .stopped, progress := 0,
             end_time := some 10 }) ∧
    (stop_task 11 "a"
      (stop_task 10 "a"
        (stepOp (TaskManager.init 5) (.create 0 "a" "t" 1))).2).1 = false ∧
    (stop_task 11 "a"
      (stop_task 10 "a"
        (stepOp (TaskManager.init 5) (.create 0 "a" "t" 1))).2).2 =
      (stop_task 10 "a"
        (stepOp (TaskManager.init 5) (.create 0 "a" "t" 1))).2 ∧
    ((monitor_end 12 "a"
        (stop_task 10 "a"
          (stepOp (TaskManager.init 5)
            (.create 0 "a" "t" 1))).2).history.lookup "a" =
      some { id := "a", target_ip := "t", duration_hours := 1,
             start_time := 0, status := .completed, progress := 100,
             end_time := some 12 }) :=
  stop_idempotent_watcher_completes
    (stepOp (TaskManager.init 5) (.create 0 "a" "t" 1)) 10 11 12 "a"
    { id := "a", target_ip := "t", duration_hours := 1, start_time := 0,
      status := .running, progress := 0, end_time := none }
    (by decide) (by decide) (by decide)

/-- C5 counterexample: `start_ping` only rejects `duration_hours > 24`;
there is no non-positivity check anywhere on the creation path, so
`CreateJob(target, 0)` and a negative duration both start a job instead of
failing with InvalidDuration. -/
theorem nonpositive_duration_accepted :
    (start_ping 0 "id1" "8.8.8.8" 0 (TaskManager.init 5)).isOk = true ∧
    (start_ping 0 "id2" "8.8.8.8" (-3) (TaskManager.init 5)).isOk = true := by
  refine ⟨by decide, by decide⟩

/-- C5 (amended): with a non-blank target, creation fails with
InvalidDuration exactly when `durationHours` exceeds 24; any duration ≤ 24
— including 24 itself, zero and negative values — is accepted capacity
permitting. -/
theorem duration_validation (now : Int) (tid target : String) (dh : Int)
    (s : TaskManager) :
    (pyStrip target ≠ "" → 24 < dh →
      start_ping now tid target dh s = .error .invalidDuration) ∧
    (pyStrip target ≠ "" → dh ≤ 24 →
      s.active.length < s.max_concurrent_tasks →
      (start_ping now tid target dh s).isOk = true) := by
  constructor
  · intro ht hd
    simp [start_ping, ht, hd]
  · intro ht hd hc
    have hd' : ¬ 24 < dh := by omega
    have hc' : ¬ s.active.length ≥ s.max_concurrent_tasks := by omega
    simp [start_ping, create_task, ht, hd', hc', Except.isOk, Except.toBool]

/-- C5 witness: duration 25 is rejected, duration 24 is accepted. -/
theorem duration_validation_witness :
    start_ping 0 "id1" "8.8.8.8" 25 (TaskManager.init 5) =
        .error .invalidDuration ∧
    (start_ping 0 "id2" "8.8.8.8" 24 (TaskManager.init 5)).isOk = true :=
  ⟨(duration_validation 0 "id1" "8.8.8.8" 25 (TaskManager.init 5)).1
      (by decide) (by decide),
   (duration_validation 0 "id2" "8.8.8.8" 24 (TaskManager.init 5)).2
      (by decide) (by decide) (by decide)⟩

/-- C10: `cleanup_old_tasks` only ever drops history records (never edits
one), a record whose status is not `completed` survives cleanup unchanged
whatever its age, and any record that is removed had status `completed`. -/
theorem cleanup_only_completed (now days : Int) (s : TaskManager)
    (tid : String) (r : TaskRec) :
    (cleanup_old_tasks now days s).history.Sublist s.history ∧
    ((tid, r) ∈ s.history → r.status ≠ .completed →
      (tid, r) ∈ (cleanup_old_tasks now days s).history) ∧
    ((tid, r) ∈ s.history →
      (tid, r) ∉ (cleanup_old_tasks now days s).history →
      r.status = .completed) := by
  refine ⟨List.filter_sublist _, fun hmem hst => ?_, fun hmem hout => ?_⟩
  · simp only [cleanup_old_tasks, List.mem_filter]
    refine ⟨hmem, ?_⟩
    simp [hst]
  · by_contra hne
    exact hout (by
      simp only [cleanup_old_tasks, List.mem_filter]
      exact ⟨hmem, by simp [hne]⟩)

/-- C10 witness: a 100-day-old `running` record and a 100-day-old `stopped`
record both survive `cleanup_old_tasks(days_to_keep=7)`. -/
theorem cleanup_only_completed_witness :
    ("a", ({ id := "a", target_ip := "t", duration_hours := 1,
             start_time := 0, status := .running, progress := 0,
             end_time := none } : TaskRec)) ∈
      (cleanup_old_tasks (100 * 86400) 7
        { max_concurrent_tasks := 5, active := ["a"],
          history :=
            [("a", { id := "a", target_ip := "t", duration_hours := 1,
                     start_time := 0, status := .running, progress := 0,
                     end_time := none }),
             ("b", { id := "b", target_ip := "t", duration_hours := 1,
                     start_time := 0, status := .stopped, progress := 0,
                     end_time := some 100 })],
          completed := [] }).history ∧
    ("b", ({ id := "b", target_ip := "t", duration_hours := 1,
             start_time := 0, status := .stopped, progress := 0,
             end_time := some 100 } : TaskRec)) ∈
      (cleanup_old_tasks (100 * 86400) 7
        { max_concurrent_tasks := 5, active := ["a"],
          history :=
            [("a", { id := "a", target_ip := "t", duration_hours := 1,
                     start_time := 0, status := .running, progress := 0,
                     end_time := none }),
             ("b", { id := "b", target_ip := "t", duration_hours := 1,
                     start_time := 0, status := .stopped, progress := 0,
                     end_time := some 100 })],
          completed := [] }).history :=
  ⟨(cleanup_only_completed (100 * 86400) 7 _ "a" _).2.1 (by decide) (by decide),
   (cleanup_only_completed (100 * 86400) 7 _ "b" _).2.1 (by decide) (by decide)⟩

/-- C7 counterexample: the `/cleanup` endpoint calls only the Store's
`clean_old_data`; a job that completed 100 days before the cutoff stays in
the registry's history (and `completed_tasks`) after the endpoint runs —
nothing purges "both places". -/
theorem cleanup_endpoint_leaves_registry :
    (cleanup_endpoint (100 * 86400)
      { max_concurrent_tasks := 5, active := [],
        history :=
          [("old1", { id := "old1", target_ip := "t", duration_hours := 1,
                      start_time := 0, status := .completed, progress := 100,
                      end_time := some 0 })],
        completed :=
          [{ id := "old1", target_ip := "t", duration_hours := 1,
             start_time := 0, status := .completed, progress := 100,
             end_time := some 0 }] }
      ⟨[], [], []⟩).1 =
      { max_concurrent_tasks := 5, active := [],
        history :=
          [("old1", { id := "old1", target_ip := "t", duration_hours := 1,
                      start_time := 0, status := .completed, progress := 100,
                      end_time := some 0 })],
        completed :=
          [{ id := "old1", target_ip := "t", duration_hours := 1,
             start_time := 0, status := .completed, progress := 100,
             end_time := some 0 }] } ∧
    (0 : Int) < 100 * 86400 - 7 * 86400 := by
  refine ⟨rfl, by decide⟩

/-- C7 (amended): the cleanup endpoint leaves the job registry completely
untouched and purges, from the Store only, exactly the persisted raw series,
reports and charts whose last-modified time precedes the 7-day cutoff;
purging registry records is the separate `cleanup_old_tasks` operation,
which the endpoint does not invoke. -/
theorem cleanup_separation (now : Int) (reg : TaskManager) (st : Store) :
    (cleanup_endpoint now reg st).1 = reg ∧
    (∀ f : RawFile, f ∈ st.raw →
      (f ∈ (cleanup_endpoint now reg st).2.raw ↔ now - 7 * 86400 ≤ f.mtime)) ∧
    (∀ f : ReportFile, f ∈ st.reports →
      (f ∈ (cleanup_endpoint now reg st).2.reports ↔
        now - 7 * 86400 ≤ f.mtime)) ∧
    (∀ f : ChartFile, f ∈ st.charts →
      (f ∈ (cleanup_endpoint now reg st).2.charts ↔
        now - 7 * 86400 ≤ f.mtime)) := by
  refine ⟨rfl, fun f hf => ?_, fun f hf => ?_, fun f hf => ?_⟩ <;>
    simp [cleanup_endpoint, clean_old_data, List.mem_filter, hf,
      Int.not_lt]

/-- C7 witness: a fresh raw file survives the endpoint while the registry is
returned unchanged. -/
theorem cleanup_separation_witness :
    (cleanup_endpoint (100 * 86400) (TaskManager.init 5)
      ⟨[⟨"ping_t_x.csv", 100 * 86400, []⟩], [], []⟩).1 = TaskManager.init 5 ∧
    ((⟨"ping_t_x.csv", 100 * 86400, []⟩ : RawFile) ∈
        (cleanup_endpoint (100 * 86400) (TaskManager.init 5)
          ⟨[⟨"ping_t_x.csv", 100 * 86400, []⟩], [], []⟩).2.raw ↔
      (100 * 86400 - 7 * 86400 : Int) ≤ 100 * 86400) :=
  ⟨(cleanup_separation (100 * 86400) (TaskManager.init 5)
      ⟨[⟨"ping_t_x.csv", 100 * 86400, []⟩], [], []⟩).1,
   (cleanup_separation (100 * 86400) (TaskManager.init 5)
      ⟨[⟨"ping_t_x.csv", 100 * 86400, []⟩], [], []⟩).2.1 _ (by decide)⟩

theorem inv_create (s : TaskManager) (now : Int) (tid target : String)
    (dh : Int) (h : Inv s) : Inv (stepOp s (.create now tid target dh)) := by
  obtain ⟨hA, hK, hIff, hC, hL⟩ := h
  by_cases hge : s.active.length ≥ s.max_concurrent_tasks
  · simpa [stepOp, create_task, hge] using
      (⟨hA, hK, hIff, hC, hL⟩ :
        s.active.Nodup ∧ (s.history.map Prod.fst).Nodup ∧ _ ∧ _ ∧ _)
  · simp only [stepOp, create_task, if_neg hge]
    cases hl : s.history.lookup tid with
    | none =>
        have hmem : tid ∉ s.active := fun hm => by
          obtain ⟨r, hr, _⟩ := (hIff tid).1 hm
          rw [hl] at hr
          exact Option.noConfusion hr
        have htk : tid ∉ s.history.map Prod.fst := fun hm => by
          have hs := (lookup_isSome_iff_mem_keys tid s.history).2 hm
          rw [hl] at hs
          exact Bool.noConfusion hs
        have hins := dinsert_of_lookup_none tid
          { id := tid, target_ip := target, duration_hours := dh,
            start_time := now, status := .running, progress := 0,
            end_time := none } s.history hl
        refine ⟨nodup_ainsert _ _ hA, ?_, ?_, ?_, ?_⟩
        · rw [hins, List.map_append]
          exact List.Nodup.append hK (List.nodup_singleton tid)
            (by simpa [List.disjoint_singleton] using htk)
        · intro t'
          by_cases ht : t' = tid
          · subst ht
            constructor
            · intro _
              exact ⟨_, by rw [hins, lookup_append_self _ _ _ hl], rfl⟩
            · intro _
              exact (mem_ainsert _ _ _).2 (Or.inl rfl)
          · have hm' : t' ∈ ainsert tid s.active ↔ t' ∈ s.active := by
              rw [mem_ainsert]
              simp [ht]
            rw [hm', hins, lookup_append_ne _ _ _ _ ht]
            exact hIff t'
        · simp only [countRunning]
          rw [hins, filter_append_single_length, if_pos (by rfl),
            length_ainsert_not_mem _ _ hmem]
          exact congrArg (· + 1) hC
        · show (ainsert tid s.active).length ≤ s.max_concurrent_tasks
          rw [length_ainsert_not_mem _ _ hmem]
          omega
    | some r =>
        have hins := dinsert_of_lookup_some tid
          { id := tid, target_ip := target, duration_hours := dh,
            start_time := now, status := .running, progress := 0,
            end_time := none } s.history r hl
        have hcnt := filter_dupdate_length
          (fun p => p.2.status == TaskStatus.running) tid
          (fun _ =>
            { id := tid, target_ip := target, duration_hours := dh,
              start_time := now, status := .running, progress := 0,
              end_time := none }) s.history r hK hl
        have hiff' : ∀ t', t' ∈ ainsert tid s.active ↔
            ∃ r', (dinsert tid
              { id := tid, target_ip := target, duration_hours := dh,
                start_time := now, status := .running, progress := 0,
                end_time := none } s.history).lookup t' = some r' ∧
              r'.status = TaskStatus.running := by
          intro t'
          by_cases ht : t' = tid
          · constructor
            · intro _
              rw [ht, hins, lookup_dupdate, hl]
              exact ⟨_, rfl, rfl⟩
            · intro _
              exact (mem_ainsert _ _ _).2 (Or.inl ht)
          · have hm' : t' ∈ ainsert tid s.active ↔ t' ∈ s.active := by
              rw [mem_ainsert]
              simp [ht]
            rw [hm', hins, lookup_dupdate_ne _ _ _ _ ht]
            exact hIff t'
        by_cases hmem : tid ∈ s.active
        · have hr : r.status = TaskStatus.running := by
            obtain ⟨r', hr', hst⟩ := (hIff tid).1 hmem
            rw [hl] at hr'
            obtain rfl : r' = r := by simpa using hr'.symm
            exact hst
          have hC' : (List.filter (fun p => p.2.status == TaskStatus.running)
              s.history).length = s.active.length := hC
          refine ⟨by simpa [ainsert, hmem] using hA,
            by rw [hins, keys_dupdate]; exact hK, hiff', ?_, ?_⟩
          · simp [hr] at hcnt
            simp only [countRunning]
            rw [hins, length_ainsert_mem _ _ hmem]
            omega
          · show (ainsert tid s.active).length ≤ s.max_concurrent_tasks
            rw [length_ainsert_mem _ _ hmem]
            exact hL
        · have hnr : ¬ r.status = TaskStatus.running := fun hr =>
            hmem ((hIff tid).2 ⟨r, hl, hr⟩)
          have hC' : (List.filter (fun p => p.2.status == TaskStatus.running)
              s.history).length = s.active.length := hC
          refine ⟨nodup_ainsert _ _ hA,
            by rw [hins, keys_dupdate]; exact hK, hiff', ?_, ?_⟩
          · simp [hnr] at hcnt
            simp only [countRunning]
            rw [hins, length_ainsert_not_mem _ _ hmem]
            omega
          · show (ainsert tid s.active).length ≤ s.max_concurrent_tasks
            rw [length_ainsert_not_mem _ _ hmem]
            omega

theorem inv_stop (s : TaskManager) (now : Int) (tid : String) (h : Inv s) :
    Inv (stepOp s (.stop now tid)) := by
  obtain ⟨hA, hK, hIff, hC, hL⟩ := h
  by_cases hmem : tid ∈ s.active
  · obtain ⟨r, hl, hr⟩ := (hIff tid).1 hmem
    simp only [stepOp, stop_task, if_pos hmem]
    have hcnt := filter_dupdate_length
      (fun p => p.2.status == TaskStatus.running) tid
      (fun r => { r with status := .stopped, end_time := some now })
      s.history r hK hl
    simp [hr] at hcnt
    have hC' : (List.filter (fun p => p.2.status == TaskStatus.running)
        s.history).length = s.active.length := hC
    have hlen : (s.active.erase tid).length = s.active.length - 1 :=
      List.length_erase_of_mem hmem
    refine ⟨hA.erase tid, by rw [keys_dupdate]; exact hK, ?_, ?_, ?_⟩
    · intro t'
      by_cases ht : t' = tid
      · constructor
        · intro hx
          have hni : tid ∉ s.active.erase tid := fun hy =>
            ((List.Nodup.mem_erase_iff hA).1 hy).1 rfl
          exact absurd (ht ▸ hx) hni
        · rintro ⟨r', hr', hst⟩
          rw [ht, lookup_dupdate, hl] at hr'
          obtain rfl : r' =
              { r with status := .stopped, end_time := some now } := by
            simpa using hr'.symm
          exact TaskStatus.noConfusion hst
      · have h1 : t' ∈ s.active.erase tid ↔ t' ∈ s.active := by
          rw [List.Nodup.mem_erase_iff hA]
          simp [ht]
        rw [h1, lookup_dupdate_ne _ _ _ _ ht]
        exact hIff t'
    · simp only [countRunning]
      rw [hlen]
      omega
    · show (s.active.erase tid).length ≤ s.max_concurrent_tasks
      rw [hlen]
      omega
  · simp only [stepOp, stop_task, if_neg hmem]
    exact ⟨hA, hK, hIff, hC, hL⟩

theorem inv_monEnd (s : TaskManager) (now : Int) (tid : String) (h : Inv s) :
    Inv (stepOp s (.monEnd now tid)) := by
  obtain ⟨hA, hK, hIff, hC, hL⟩ := h
  simp only [stepOp, monitor_end]
  cases hl : s.history.lookup tid with
  | none =>
      have hmem : tid ∉ s.active := fun hm => by
        obtain ⟨r, hr, _⟩ := (hIff tid).1 hm
        rw [hl] at hr
        exact Option.noConfusion hr
      have hany : s.history.any (fun p => p.1 == tid) = false := by
        rw [any_key_eq_lookup_isSome, hl]
        rfl
      simp only [hany, Bool.false_eq_true, if_false]
      rw [List.erase_of_not_mem hmem]
      exact ⟨hA, hK, hIff, hC, hL⟩
  | some r =>
      have hany : s.history.any (fun p => p.1 == tid) = true := by
        rw [any_key_eq_lookup_isSome, hl]
        rfl
      simp only [hany, if_true]
      have hcnt := filter_dupdate_length
        (fun p => p.2.status == TaskStatus.running) tid
        (fun r => { r with status := .completed, end_time := some now, progress := 100 })
        s.history r hK hl
      have hC' : (List.filter (fun p => p.2.status == TaskStatus.running)
          s.history).length = s.active.length := hC
      by_cases hmem : tid ∈ s.active
      · have hr : r.status = TaskStatus.running := by
          obtain ⟨r', hr', hst⟩ := (hIff tid).1 hmem
          rw [hl] at hr'
          obtain rfl : r' = r := by simpa using hr'.symm
          exact hst
        simp [hr] at hcnt
        have hlen : (s.active.erase tid).length = s.active.length - 1 :=
          List.length_erase_of_mem hmem
        refine ⟨hA.erase tid, by rw [keys_dupdate]; exact hK, ?_, ?_, ?_⟩
        · intro t'
          by_cases ht : t' = tid
          · constructor
            · intro hx
              have hni : tid ∉ s.active.erase tid := fun hy =>
                ((List.Nodup.mem_erase_iff hA).1 hy).1 rfl
              exact absurd (ht ▸ hx) hni
            · rintro ⟨r', hr', hst⟩
              rw [ht, lookup_dupdate, hl] at hr'
              obtain rfl : r' =
                  { r with status := .completed, end_time := some now,
                           progress := 100 } := by
                simpa using hr'.symm
              exact TaskStatus.noConfusion hst
          · have h1 : t' ∈ s.active.erase tid ↔ t' ∈ s.active := by
              rw [List.Nodup.mem_erase_iff hA]
              simp [ht]
            rw [h1, lookup_dupdate_ne _ _ _ _ ht]
            exact hIff t'
        · simp only [countRunning]
          rw [hlen]
          omega
        · show (s.active.erase tid).length ≤ s.max_concurrent_tasks
          rw [hlen]
          omega
      · have hnr : ¬ r.status = TaskStatus.running := fun hr =>
          hmem ((hIff tid).2 ⟨r, hl, hr⟩)
        simp [hnr] at hcnt
        have herase : s.active.erase tid = s.active :=
          List.erase_of_not_mem hmem
        refine ⟨by rw [herase]; exact hA,
          by rw [keys_dupdate]; exact hK, ?_, ?_, ?_⟩
        · intro t'
          by_cases ht : t' = tid
          · constructor
            · intro hx
              rw [herase, ht] at hx
              exact absurd hx hmem
            · rintro ⟨r', hr', hst⟩
              rw [ht, lookup_dupdate, hl] at hr'
              obtain rfl : r' =
                  { r with status := .completed, end_time := some now,
                           progress := 100 } := by
                simpa using hr'.symm
              exact TaskStatus.noConfusion hst
          · rw [herase, lookup_dupdate_ne _ _ _ _ ht]
            exact hIff t'
        · simp only [countRunning]
          rw [herase]
          omega
        · show (s.active.erase tid).length ≤ s.max_concurrent_tasks
          rw [herase]
          exact hL

theorem inv_init (maxC : Nat) : Inv (TaskManager.init maxC) := by
  refine ⟨List.nodup_nil, List.nodup_nil, ?_, rfl, Nat.zero_le _⟩
  intro tid
  simp [TaskManager.init, List.lookup_nil]

theorem inv_runOps (maxC : Nat) (ops : List Op) : Inv (runOps maxC ops) := by
  suffices h : ∀ (l : List Op) (s : TaskManager), Inv s →
      Inv (l.foldl stepOp s) from h ops _ (inv_init maxC)
  intro l
  induction l with
  | nil => exact fun s hs => hs
  | cons op l ih =>
      intro s hs
      refine ih _ ?_
      cases op with
      | create now tid target dh => exact inv_create s now tid target dh hs
      | stop now tid => exact inv_stop s now tid hs
      | monEnd now tid => exact inv_monEnd s now tid hs

theorem stepOp_max (s : TaskManager) (op : Op) :
    (stepOp s op).max_concurrent_tasks = s.max_concurrent_tasks := by
  cases op with
  | create now tid target dh =>
      by_cases hge : s.active.length ≥ s.max_concurrent_tasks
      · simp [stepOp, create_task, hge]
      · simp [stepOp, create_task, hge]
  | stop now tid =>
      by_cases hm : tid ∈ s.active
      · simp [stepOp, stop_task, hm]
      · simp [stepOp, stop_task, hm]
  | monEnd now tid =>
      by_cases ha : s.history.any (fun p => p.1 == tid) = true
      · simp [stepOp, monitor_end, ha]
      · simp [stepOp, monitor_end, ha]

theorem max_runOps (maxC : Nat) (ops : List Op) :
    (runOps maxC ops).max_concurrent_tasks = maxC := by
  suffices h : ∀ (l : List Op) (s : TaskManager),
      (l.foldl stepOp s).max_concurrent_tasks = s.max_concurrent_tasks from
    h ops (TaskManager.init maxC)
  intro l
  induction l with
  | nil => exact fun s => rfl
  | cons op l ih =>
      intro s
      rw [List.foldl_cons, ih, stepOp_max]

/-- C6: whatever sequence of create/stop/terminal events the registry
processes from a fresh `TaskManager`, the number of history records with
status `running` never exceeds the configured ceiling, and any
`create_task` attempted while the active count is at or above the ceiling
fails with CapacityExceeded instead of registering a job. -/
theorem admission_ceiling (maxC : Nat) (ops : List Op) :
    countRunning (runOps maxC ops) ≤ maxC ∧
    (∀ (now : Int) (tid target : String) (dh : Int),
      maxC ≤ (runOps maxC ops).active.length →
      create_task now tid target dh (runOps maxC ops) =
        .error .capacityExceeded) := by
  obtain ⟨-, -, -, hC, hL⟩ := inv_runOps maxC ops
  have hm := max_runOps maxC ops
  constructor
  · rw [hm] at hL
    omega
  · intro now tid target dh hge
    simp [create_task, hm, hge]

/-- C6 witness: with ceiling 1 and one job created, a second creation
attempt is refused and the running count is within the ceiling. -/
theorem admission_ceiling_witness :
    countRunning (runOps 1 [.create 0 "a" "t" 1]) ≤ 1 ∧
    create_task 5 "b" "t" 1 (runOps 1 [.create 0 "a" "t" 1]) =
      .error .capacityExceeded :=
  ⟨(admission_ceiling 1 [.create 0 "a" "t" 1]).1,
   (admission_ceiling 1 [.create 0 "a" "t" 1]).2 5 "b" "t" 1 (by decide)⟩

/-- C9 counterexample: because `create_task`'s admission check (line 18) runs
before the lock is acquired (line 27), the interleaving
check₁, check₂, register₁, register₂ of two concurrent `create_task` calls
with ceiling 1 lets both pass the check and both register: the active count
reaches 2 > 1, so check-then-insert is NOT atomic under one lock
acquisition. -/
theorem create_race_oversubscribes :
    (runRace ⟨0, 1, .preCheck, .preCheck⟩ [.one, .two, .one, .two]).active = 2 ∧
    (runRace ⟨0, 1, .preCheck, .preCheck⟩ [.one, .two, .one, .two]).maxC = 1 ∧
    (runRace ⟨0, 1, .preCheck, .preCheck⟩ [.one, .two, .one, .two]).pc1 =
      .finished ∧
    (runRace ⟨0, 1, .preCheck, .preCheck⟩ [.one, .two, .one, .two]).pc2 =
      .finished := by
  refine ⟨rfl, rfl, rfl, rfl⟩

/-- C9 (amended): only the registration itself runs under the lock; the
admission check precedes the lock acquisition, so an interleaving of two
concurrent `CreateJob` calls can oversubscribe the ceiling.  When the two
calls do not interleave between check and registration (serial execution),
the ceiling is preserved. -/
theorem serial_create_respects_ceiling (a maxC : Nat) (h : a ≤ maxC) :
    (runRace ⟨a, maxC, .preCheck, .preCheck⟩
      [.one, .one, .two, .two]).active ≤ maxC := by
  by_cases h1 : a ≥ maxC
  · simp [runRace, raceStep, h1, h]
  · by_cases h2 : a + 1 ≥ maxC
    · simp [runRace, raceStep, h1, h2]
      omega
    · simp [runRace, raceStep, h1, h2]
      omega

/-- C9 witness: serial execution with ceiling 1 from an empty registry. -/
theorem serial_create_respects_ceiling_witness :
    (runRace ⟨0, 1, .preCheck, .preCheck⟩
      [.one, .one, .two, .two]).active ≤ 1 :=
  serial_create_respects_ceiling 0 1 (by decide)

end PingXiangmu
